import Mathlib

/-!
Verification of the screenshot-runner capture-and-diff pipeline.

The Python sources are shallowly embedded below:
* `sanitize_filename` / `sanitizedCore` — helpers.py lines 27-35
  (identical copy in screenshot_urls.py lines 23-36);
* `processUrl`, `compareLoop`, `run_and_compare` — the comparison pass of
  controllers/screenshots_controller.py `run_and_compare`, lines 98-172;
* `compute_metrics` — helpers.py lines 54-65, with the external
  `skimage.metrics.structural_similarity` call modelled from the spec;
* `cleanShotsDir` — the PNG purge of controllers/screenshots_controller.py
  lines 89-94 (same pattern in screenshot_urls.py lines 165-170);
* `gentle_scroll` — screenshot_urls.py lines 61-78.

Python floats are modelled as exact rationals (ℚ); strings as Lean `String`
(a wrapper around `List Char`); the filesystem and browser as explicit state.
-/

namespace ScreenshotRunner

/-! ## Capture-key sanitizer (helpers.py lines 27-35) -/

/-- The character class `[A-Za-z0-9._-]` of the replacement regex. -/
def isSafeChar (c : Char) : Bool :=
  (65 ≤ c.toNat && c.toNat ≤ 90) ||    -- A-Z
  (97 ≤ c.toNat && c.toNat ≤ 122) ||   -- a-z
  (48 ≤ c.toNat && c.toNat ≤ 57) ||    -- 0-9
  c.toNat == 46 || c.toNat == 95 || c.toNat == 45  -- . _ -

/-- `re.sub(r"^https?://", "", url)`: strip one leading scheme. -/
def stripScheme (s : List Char) : List Char :=
  if s.take 8 = "https://".data then s.drop 8
  else if s.take 7 = "http://".data then s.drop 7
  else s

/-- Worker for `re.sub(r"[^A-Za-z0-9._-]+", "_", s)`: each maximal run of
unsafe characters becomes a single underscore.  The boolean records whether
the previous character belonged to an unsafe run. -/
def replaceUnsafeAux : Bool → List Char → List Char
  | _, [] => []
  | prevUnsafe, c :: rest =>
    if isSafeChar c then c :: replaceUnsafeAux false rest
    else if prevUnsafe then replaceUnsafeAux true rest
    else '_' :: replaceUnsafeAux true rest

/-- `re.sub(r"[^A-Za-z0-9._-]+", "_", s)`. -/
def replaceUnsafe (s : List Char) : List Char := replaceUnsafeAux false s

/-- Worker for `re.sub(r"_+", "_", s)`: collapse runs of underscores. -/
def collapseUnderscoreAux : Bool → List Char → List Char
  | _, [] => []
  | prev, c :: rest =>
    if c = '_' then
      if prev then collapseUnderscoreAux true rest
      else '_' :: collapseUnderscoreAux true rest
    else c :: collapseUnderscoreAux false rest

/-- `re.sub(r"_+", "_", s)`. -/
def collapseUnderscores (s : List Char) : List Char := collapseUnderscoreAux false s

/-- Python `str.strip("_")`: drop leading and trailing underscores. -/
def stripUnderscores (s : List Char) : List Char :=
  ((s.dropWhile (fun c => c = '_')).reverse.dropWhile (fun c => c = '_')).reverse

/-- `if len(safe) > max_len: safe = safe[:max_len]`. -/
def truncateTo (maxLen : Nat) (s : List Char) : List Char :=
  if maxLen < s.length then s.take maxLen else s

/-- The sanitizing pipeline of `sanitize_filename` before the empty-name
fallback and the extension: scheme stripped, unsafe runs replaced,
underscores collapsed, leading/trailing underscores trimmed, truncated. -/
def sanitizedCore (maxLen : Nat) (url : List Char) : List Char :=
  truncateTo maxLen (stripUnderscores (collapseUnderscores (replaceUnsafe (stripScheme url))))

/-- helpers.py `sanitize_filename` with the default `max_len = 150`:
the sanitized core, the `"screenshot"` fallback when it is empty,
and the fixed `".png"` extension. -/
def sanitize_filename (url : String) : String :=
  let safe := sanitizedCore 150 url.data
  String.mk ((if safe = [] then "screenshot".data else safe) ++ ".png".data)

/-! ## Comparison pass of the `/run` endpoint
(controllers/screenshots_controller.py, `run_and_compare`, lines 98-172)

The loop body only touches the filesystem and the image libraries through
`base_path.exists()`, `cur_path.exists()` and the `try` block around
`png_to_array`/`compute_metrics`/`save_diff_image`.  Those external effects
are abstracted into a per-URL environment: whether the trainer (baseline)
image exists, whether the current screenshot exists, and the outcome of the
comparison (an exception message, or the computed `ssim`/`mse` metrics). -/

/-- The `{"ssim": s, "mse": m}` record stored in a report item. -/
structure Metrics where
  ssim : ℚ
  mse : ℚ
deriving DecidableEq

instance instDecEqExcept {ε α : Type} [DecidableEq ε] [DecidableEq α] :
    DecidableEq (Except ε α) := fun x y =>
  match x, y with
  | Except.error a, Except.error b =>
    if h : a = b then isTrue (congrArg Except.error h)
    else isFalse (fun hc => h (Except.error.inj hc))
  | Except.error _, Except.ok _ => isFalse Except.noConfusion
  | Except.ok _, Except.error _ => isFalse Except.noConfusion
  | Except.ok a, Except.ok b =>
    if h : a = b then isTrue (congrArg Except.ok h)
    else isFalse (fun hc => h (Except.ok.inj hc))

/-- External facts the loop body observes for one URL. -/
structure UrlEnv where
  trainerExists : Bool
  currentExists : Bool
  compareResult : Except String Metrics
deriving DecidableEq

/-- One entry of the report's `items` list.  The path-valued fields
`current` and `trainer` (pure echoes of the configured directories) are
omitted; `diff` holds the diff artifact's filename when one is written. -/
structure Item where
  url : String
  status : String
  metrics : Option Metrics
  reason : Option String
  diff : Option String
deriving DecidableEq

/-- The totals dictionary `{"ok": 0, "warn": 0, "fail": 0, "no_trainer": 0}`
(controller line 100). -/
structure Totals where
  ok : Nat
  warn : Nat
  fail : Nat
  no_trainer : Nat
deriving DecidableEq

def totalsInit : Totals := ⟨0, 0, 0, 0⟩

/-- The literal key set of the totals dictionary, in insertion order. -/
def totalsKeys : List String := ["ok", "warn", "fail", "no_trainer"]

/-- `totals[status] += 1`.  The final branch models the `KeyError` a key
outside the dictionary would raise; it is never reached, since the loop
only produces the statuses `ok`, `fail` and `no_trainer`. -/
def bump (t : Totals) (s : String) : Totals :=
  if s = "ok" then { t with ok := t.ok + 1 }
  else if s = "warn" then { t with warn := t.warn + 1 }
  else if s = "fail" then { t with fail := t.fail + 1 }
  else if s = "no_trainer" then { t with no_trainer := t.no_trainer + 1 }
  else t

/-- Default of the `ssim_threshold` query parameter (`float = 0.92`,
modelled as the exact rational). -/
def ssim_threshold_default : ℚ := 92/100

/-- The body of the `for u in urls:` loop (controller lines 102-172),
producing the report item for one URL. -/
def processUrl (threshold : ℚ) (env : UrlEnv) (u : String) : Item :=
  let name := sanitize_filename u
  if env.trainerExists = false then
    { url := u, status := "no_trainer", metrics := none,
      reason := some ("Trainer image not found: " ++ name), diff := none }
  else if env.currentExists = false then
    { url := u, status := "fail", metrics := none,
      reason := some ("Current screenshot not found: " ++ name), diff := none }
  else
    match env.compareResult with
    | Except.error e =>
      { url := u, status := "fail", metrics := none,
        reason := some ("Comparison error: " ++ e), diff := none }
    | Except.ok m =>
      let status := if m.ssim ≥ threshold then "ok" else "fail"
      let diffPath : Option String :=
        if status ≠ "ok" then some ("diff_" ++ name) else none
      { url := u, status := status, metrics := some m,
        reason := none, diff := diffPath }

/-- The `for u in urls:` loop: appends one item per URL to `per_item` and
bumps the totals counter of the item's status. -/
def compareLoop (threshold : ℚ) (env : String → UrlEnv) :
    List String → List Item × Totals → List Item × Totals
  | [], acc => acc
  | u :: rest, acc =>
    let it := processUrl threshold (env u) u
    compareLoop threshold env rest (acc.1 ++ [it], bump acc.2 it.status)

/-- The comparison pass of `run_and_compare`: iterate the parsed URL list
starting from an empty `per_item` list and zeroed totals. -/
def run_and_compare (threshold : ℚ) (env : String → UrlEnv)
    (urls : List String) : List Item × Totals :=
  compareLoop threshold env urls ([], totalsInit)

/-- Sum of the four totals counters. -/
def sumTotals (t : Totals) : Nat := t.ok + t.warn + t.fail + t.no_trainer

/-! ## PNG purge before a run
(controller lines 89-94; same pattern in screenshot_urls.py lines 165-170)

A directory is modelled as its list of filenames. -/

/-- `glob("*.png")` matches exactly the names ending in `.png`. -/
def isPng (f : String) : Bool := ".png".data.isSuffixOf f.data

/-- `for f in dir.glob("*.png"): f.unlink()` — delete each matched file. -/
def unlinkAll (dir : List String) (files : List String) : List String :=
  files.foldl (fun d f => d.erase f) dir

/-- The two directories visible to the pre-run cleanup. -/
structure DirsState where
  shots : List String
  trainer : List String
deriving DecidableEq

/-- The `clean screenshots dir (PNGs) before run` step: purge the PNG files
of the screenshots directory; the trainer directory is not touched. -/
def cleanShotsDir (st : DirsState) : DirsState :=
  { st with shots := unlinkAll st.shots (st.shots.filter (fun f => isPng f)) }

/-! ## Incremental scroll loop
(screenshot_urls.py, `gentle_scroll`, lines 61-78)

The live browser is an external, stateful collaborator; it is modelled as an
abstract state type `β` together with the four operations the loop uses.
`getHeight` reads `document.body.scrollHeight || documentElement.scrollHeight`,
`scrollTo` issues `window.scrollTo(0, y)`, `pause` is the `time.sleep(pause)`
between steps (the page may keep loading during it), and `getOffset` reads
`window.pageYOffset`. -/

structure Browser (β : Type) where
  getHeight : β → ℚ
  scrollTo : β → ℚ → β
  pause : β → β
  getOffset : β → ℚ

/-- Observable outcome of a `gentle_scroll` call: the final browser state,
the number of loop iterations executed, whether the loop broke early on a
stalled offset, and the traces of issued scroll targets, read-back offsets
and read document heights (one offset and one height per iteration). -/
structure ScrollResult (β : Type) where
  state : β
  steps : Nat
  early : Bool
  scrolls : List ℚ
  offsets : List ℚ
  heights : List ℚ

/-- The `while steps < max_steps:` loop of `gentle_scroll`, with
`fuel = max_steps - steps` and `last` the `last_height` variable.  On a
stalled offset (`new_height == last_height`) it issues one final jump to the
height read in that iteration and stops. -/
def gentleScrollLoop {β : Type} (br : Browser β) : Nat → ℚ → β → ScrollResult β
  | 0, _, b => ⟨b, 0, false, [], [], []⟩
  | fuel + 1, last, b =>
    let height := br.getHeight b
    let b1 := br.pause (br.scrollTo b (min (last + 800) height))
    let newOffset := br.getOffset b1
    if newOffset = last then
      ⟨br.pause (br.scrollTo b1 height), 1, true,
        [min (last + 800) height, height], [newOffset], [height]⟩
    else
      let r := gentleScrollLoop br fuel newOffset b1
      ⟨r.state, r.steps + 1, r.early,
        min (last + 800) height :: r.scrolls,
        newOffset :: r.offsets, height :: r.heights⟩

/-- `gentle_scroll` with its default `max_steps = 100` and initial
`last_height = 0`. -/
def gentle_scroll {β : Type} (br : Browser β) (b : β) : ScrollResult β :=
  gentleScrollLoop br 100 0 b

/-- A concrete browser whose read-back scroll offset never advances (a page
that cannot scroll): the very first iteration reads an offset equal to the
initial `last_height = 0`, so the loop breaks early. -/
def testBrowser : Browser ℚ :=
  ⟨fun _ => 0, fun s _ => s, fun s => s, fun _ => 0⟩

/-- Behaviour of the scroll loop started with `last_height = last` and
`max_steps - steps = fuel` remaining iterations: it executes at most `fuel`
iterations (one offset and one height read per iteration); it issues one
scroll per iteration plus exactly one extra final jump when it breaks early;
without an early break it uses all iterations and every read offset advanced
(consecutive reads, seeded with `last`, are pairwise distinct); with an early
break the offset trace ends in a repeated value, all earlier consecutive
reads were distinct, and the final scroll target is the document height read
in the breaking iteration. -/
def ScrollSpec (fuel : Nat) (last : ℚ) {β : Type} (r : ScrollResult β) : Prop :=
  r.steps ≤ fuel ∧
  r.offsets.length = r.steps ∧
  r.heights.length = r.steps ∧
  r.scrolls.length = r.steps + (if r.early then 1 else 0) ∧
  (r.early = false →
    r.steps = fuel ∧ List.Chain' (fun x y => x ≠ y) (last :: r.offsets)) ∧
  (r.early = true →
    1 ≤ r.steps ∧
    (∃ l x, last :: r.offsets = l ++ [x, x]) ∧
    List.Chain' (fun x y => x ≠ y) ((last :: r.offsets).dropLast) ∧
    r.scrolls.getLast? = r.heights.getLast?)

/-! ## Image comparison metrics (helpers.py, `compute_metrics`, lines 54-65)

A decoded RGB raster (`png_to_array` output) is a grid of three-channel
pixels; channel values and all arithmetic are modelled over ℚ.  The two
external library calls inside `compute_metrics` are handled as follows:

* `Image.resize((w, h), Image.LANCZOS)` is an external resampler; it is a
  parameter `resize` of the embedding (the claims under study never
  exercise it, since identical inputs have identical shapes);
* `skimage.metrics.structural_similarity(grayA, grayB, full=True,
  data_range=255.0)` is library code outside this repository.  `ssimAt` and
  `ssimScore` below are modelled from the spec: "compute the windowed
  structural-similarity index between the two luminance grids over the full
  data range [0,255], returning both a scalar score in [-1,1] (1 =
  identical) and a full per-pixel similarity map".  The local window
  statistics are taken through an abstract local-averaging filter `wt`
  (for each pixel `p`, nonnegative weights over the grid summing to 1 —
  the uniform windows of the library are one such filter), with the
  standard constants `C1 = (0.01·L)²`, `C2 = (0.03·L)²`. -/

/-- One RGB pixel. -/
structure RGBPx where
  r : ℚ
  g : ℚ
  b : ℚ
deriving DecidableEq

/-- A decoded image: rows of pixels. -/
abbrev RGBImage := List (List RGBPx)

/-- A single-channel (luminance) grid. -/
abbrev GrayImage := List (List ℚ)

/-- `np.dot(img[..., :3], [0.299, 0.587, 0.114])` for one pixel. -/
def luma (px : RGBPx) : ℚ := 299/1000 * px.r + 587/1000 * px.g + 114/1000 * px.b

/-- Grayscale reduction of a whole image. -/
def toGray (img : RGBImage) : GrayImage := img.map (fun row => row.map luma)

/-- `img.shape[:2]` — (rows, columns). -/
def imgShape (img : RGBImage) : Nat × Nat := (img.length, (img.getD 0 []).length)

/-- Value of a luminance grid at a coordinate (0 outside the grid). -/
def pxAt (g : GrayImage) (p : Nat × Nat) : ℚ := (g.getD p.1 []).getD p.2 0

/-- All pixel coordinates of an `h × w` grid. -/
def pixelSet (h w : Nat) : Finset (Nat × Nat) := Finset.range h ×ˢ Finset.range w

/-- Local weighted average of `X` around pixel `p` under the filter `wt`. -/
def localMean (P : Finset (Nat × Nat)) (wt : Nat × Nat → Nat × Nat → ℚ)
    (X : Nat × Nat → ℚ) (p : Nat × Nat) : ℚ :=
  ∑ q ∈ P, wt p q * X q

/-- SSIM stabilizing constant `C1 = (K1·L)²` with the default `K1 = 0.01`. -/
def ssimC1 (L : ℚ) : ℚ := (1/100 * L)^2

/-- SSIM stabilizing constant `C2 = (K2·L)²` with the default `K2 = 0.03`. -/
def ssimC2 (L : ℚ) : ℚ := (3/100 * L)^2

/-- Modelled from the spec: the per-pixel entry of the structural-similarity
map for luminance grids `X`, `Y` over data range `L` — the standard SSIM
formula on local means, variances and covariance taken under the filter
`wt`. -/
def ssimAt (P : Finset (Nat × Nat)) (wt : Nat × Nat → Nat × Nat → ℚ)
    (X Y : Nat × Nat → ℚ) (L : ℚ) (p : Nat × Nat) : ℚ :=
  let ux := localMean P wt X p
  let uy := localMean P wt Y p
  let vx := localMean P wt (fun q => X q * X q) p - ux * ux
  let vy := localMean P wt (fun q => Y q * Y q) p - uy * uy
  let vxy := localMean P wt (fun q => X q * Y q) p - ux * uy
  ((2 * ux * uy + ssimC1 L) * (2 * vxy + ssimC2 L)) /
    ((ux * ux + uy * uy + ssimC1 L) * (vx + vy + ssimC2 L))

/-- Modelled from the spec: the scalar SSIM score — the mean of the
per-pixel similarity map. -/
def ssimScore (P : Finset (Nat × Nat)) (wt : Nat × Nat → Nat × Nat → ℚ)
    (X Y : Nat × Nat → ℚ) (L : ℚ) : ℚ :=
  (∑ p ∈ P, ssimAt P wt X Y L p) / (P.card : ℚ)

/-- Metrics record returned by `compute_metrics`:
`{"ssim": score, "mse": mse, "diff_vis": diff_vis}`, where `diff_vis` is
`((1 - diff).clip(0, 255) * 255).astype(np.uint8)` pixel-wise. -/
structure MetricsFull where
  ssim : ℚ
  mse : ℚ
  diff_vis : Nat × Nat → ℕ

/-- The body of `compute_metrics` after the size-alignment step: grayscale
reduction of both images, SSIM score and map over data range 255, mean
squared luminance error, and the quantized difference visualization. -/
def computeMetricsAligned (wt : Nat × Nat → Nat × Nat → ℚ)
    (imgA imgB2 : RGBImage) : MetricsFull :=
  let grayA := toGray imgA
  let grayB := toGray imgB2
  let P := pixelSet imgA.length ((imgA.getD 0 []).length)
  let X := pxAt grayA
  let Y := pxAt grayB
  { ssim := ssimScore P wt X Y 255,
    mse := (∑ p ∈ P, (X p - Y p) * (X p - Y p)) / (P.card : ℚ),
    diff_vis := fun p =>
      (⌊min 255 (max 0 ((1 - ssimAt P wt X Y 255 p) * 255))⌋).toNat }

/-- helpers.py `compute_metrics`: if the current image's shape differs from
the trainer's, resize it to the trainer's dimensions first (the external
LANCZOS resampler is the parameter `resize`), then compute the metrics. -/
def compute_metrics (resize : RGBImage → Nat × Nat → RGBImage)
    (wt : Nat × Nat → Nat × Nat → ℚ) (imgA imgB : RGBImage) : MetricsFull :=
  let h := imgA.length
  let w := (imgA.getD 0 []).length
  let imgB2 := if imgShape imgB ≠ (h, w) then resize imgB (w, h) else imgB
  computeMetricsAligned wt imgA imgB2

/-! ### Basic facts about the sanitizer -/

theorem truncateTo_len (s : List Char) : (truncateTo 150 s).length ≤ 150 := by
  unfold truncateTo
  split
  · rw [List.length_take]
    omega
  · omega

theorem sanitizedCore_len (url : List Char) : (sanitizedCore 150 url).length ≤ 150 :=
  truncateTo_len _

theorem sanitize_filename_len (u : String) : (sanitize_filename u).length ≤ 154 := by
  have h : (sanitize_filename u).length =
      ((if sanitizedCore 150 u.data = [] then "screenshot".data
        else sanitizedCore 150 u.data) ++ ".png".data).length := rfl
  rw [h, List.length_append]
  have hpng : (".png".data).length = 4 := rfl
  split
  · decide
  · have := sanitizedCore_len u.data
    omega

theorem sanitize_filename_eq (u : String) :
    sanitize_filename u =
      String.mk ((if sanitizedCore 150 u.data = [] then "screenshot".data
        else sanitizedCore 150 u.data) ++ ".png".data) := rfl

/-- C4: the Capture Key function is deterministic, always ends in the fixed
extension `.png`, has length at most `max_len + 4 = 154` for the default
`max_len = 150`, and two URLs receive different keys only when their
sanitized character content (scheme stripped, unsafe characters replaced,
separators collapsed and trimmed, truncated) differs. -/
theorem C4_capture_key_deterministic_bounded (u v : String) :
    sanitize_filename u = sanitize_filename u ∧
    List.IsSuffix ".png".data (sanitize_filename u).data ∧
    (sanitize_filename u).length ≤ 154 ∧
    (sanitizedCore 150 u.data = sanitizedCore 150 v.data →
      sanitize_filename u = sanitize_filename v) := by
  refine ⟨rfl, ⟨_, rfl⟩, sanitize_filename_len u, ?_⟩
  intro h
  rw [sanitize_filename_eq, sanitize_filename_eq, h]

theorem C4_capture_key_witness :
    sanitizedCore 150 "http://a".data = sanitizedCore 150 "a".data ∧
    sanitize_filename "http://a" = sanitize_filename "a" :=
  ⟨by decide, (C4_capture_key_deterministic_bounded "http://a" "a").2.2.2 (by decide)⟩

/-- C10: a URL whose sanitized content is empty (for example `https://`, or a
URL made only of characters outside the safe class) gets the fallback key
`screenshot.png`; the key is never the bare extension (its length is at least
5), and all empty-content URLs collide on the same filename. -/
theorem C10_empty_sanitized_fallback (u v : String) :
    5 ≤ (sanitize_filename u).length ∧
    (sanitizedCore 150 u.data = [] → sanitize_filename u = "screenshot.png") ∧
    (sanitizedCore 150 u.data = [] → sanitizedCore 150 v.data = [] →
      sanitize_filename u = sanitize_filename v) := by
  refine ⟨?_, ?_, ?_⟩
  · have h : (sanitize_filename u).length =
        ((if sanitizedCore 150 u.data = [] then "screenshot".data
          else sanitizedCore 150 u.data) ++ ".png".data).length := rfl
    rw [h, List.length_append]
    have hpng : (".png".data).length = 4 := rfl
    split
    · decide
    · next hne =>
      have hpos : 0 < (sanitizedCore 150 u.data).length := List.length_pos.mpr hne
      omega
  · intro h
    rw [sanitize_filename_eq, h]
    decide
  · intro h1 h2
    rw [sanitize_filename_eq, sanitize_filename_eq, h1, h2]

theorem C10_empty_sanitized_witness :
    sanitizedCore 150 "https://".data = [] ∧
    sanitize_filename "https://" = "screenshot.png" ∧
    sanitize_filename "https://" = sanitize_filename "%%%" := by
  have h := C10_empty_sanitized_fallback "https://" "%%%"
  exact ⟨by decide, h.2.1 (by decide), h.2.2 (by decide) (by decide)⟩

/-! ### Facts about the comparison loop -/

theorem processUrl_url (threshold : ℚ) (env : UrlEnv) (u : String) :
    (processUrl threshold env u).url = u := by
  unfold processUrl
  rcases env with ⟨te, ce, cr⟩
  cases te
  · rfl
  · cases ce
    · rfl
    · cases cr with
      | error e => rfl
      | ok m =>
        dsimp only
        by_cases h : m.ssim ≥ threshold <;> simp [h]

theorem processUrl_status_cases (threshold : ℚ) (env : UrlEnv) (u : String) :
    (processUrl threshold env u).status = "ok" ∨
    (processUrl threshold env u).status = "fail" ∨
    (processUrl threshold env u).status = "no_trainer" := by
  unfold processUrl
  rcases env with ⟨te, ce, cr⟩
  cases te
  · right; right; rfl
  · cases ce
    · right; left; rfl
    · cases cr with
      | error e => right; left; rfl
      | ok m =>
        dsimp only
        by_cases h : m.ssim ≥ threshold <;> simp [h]

theorem processUrl_status_ne_warn (threshold : ℚ) (env : UrlEnv) (u : String) :
    (processUrl threshold env u).status ≠ "warn" := by
  rcases processUrl_status_cases threshold env u with h | h | h <;> rw [h] <;> decide
theorem bump_warn_eq (t : Totals) (s : String) (h : s ≠ "warn") :
    (bump t s).warn = t.warn := by
  unfold bump
  by_cases h1 : s = "ok"
  · simp [h1]
  · by_cases h2 : s = "warn"
    · exact absurd h2 h
    · by_cases h3 : s = "fail"
      · simp [h1, h2, h3]
      · by_cases h4 : s = "no_trainer"
        · simp [h1, h2, h3, h4]
        · simp [h1, h2, h3, h4]

theorem bump_sum (t : Totals) (s : String)
    (h : s = "ok" ∨ s = "fail" ∨ s = "no_trainer") :
    sumTotals (bump t s) = sumTotals t + 1 := by
  rcases h with h | h | h <;> subst h
  · have e : bump t "ok" = { t with ok := t.ok + 1 } := rfl
    rw [e]
    simp only [sumTotals]
    omega
  · have e : bump t "fail" = { t with fail := t.fail + 1 } := rfl
    rw [e]
    simp only [sumTotals]
    omega
  · have e : bump t "no_trainer" = { t with no_trainer := t.no_trainer + 1 } := rfl
    rw [e]
    simp only [sumTotals]
    omega

theorem compareLoop_spec (threshold : ℚ) (env : String → UrlEnv)
    (urls : List String) : ∀ acc : List Item × Totals,
    ((compareLoop threshold env urls acc).1.map Item.url
        = acc.1.map Item.url ++ urls) ∧
    sumTotals (compareLoop threshold env urls acc).2
        = sumTotals acc.2 + urls.length ∧
    (compareLoop threshold env urls acc).2.warn = acc.2.warn ∧
    ((compareLoop threshold env urls acc).1.map Item.status).count "warn"
        = (acc.1.map Item.status).count "warn" := by
  induction urls with
  | nil =>
    intro acc
    exact ⟨by simp [compareLoop], by simp [compareLoop], rfl, rfl⟩
  | cons u rest ih =>
    intro acc
    have hstep : compareLoop threshold env (u :: rest) acc =
        compareLoop threshold env rest
          (acc.1 ++ [processUrl threshold (env u) u],
           bump acc.2 (processUrl threshold (env u) u).status) := rfl
    rw [hstep]
    obtain ⟨h1, h2, h3, h4⟩ := ih (acc.1 ++ [processUrl threshold (env u) u],
      bump acc.2 (processUrl threshold (env u) u).status)
    have hne := processUrl_status_ne_warn threshold (env u) u
    refine ⟨?_, ?_, ?_, ?_⟩
    · rw [h1]
      show List.map Item.url (acc.1 ++ [processUrl threshold (env u) u]) ++ rest
          = List.map Item.url acc.1 ++ (u :: rest)
      simp [processUrl_url]
    · rw [h2]
      show sumTotals (bump acc.2 (processUrl threshold (env u) u).status) + rest.length
          = sumTotals acc.2 + (u :: rest).length
      rw [bump_sum acc.2 _ (processUrl_status_cases threshold (env u) u)]
      simp only [List.length_cons]
      omega
    · rw [h3]
      exact bump_warn_eq _ _ hne
    · rw [h4]
      show (List.map Item.status (acc.1 ++ [processUrl threshold (env u) u])).count "warn"
          = (List.map Item.status acc.1).count "warn"
      rw [List.map_append, List.count_append]
      have hz : (List.map Item.status [processUrl threshold (env u) u]).count "warn" = 0 := by
        simp [List.count_cons, beq_iff_eq, Ne.symm hne]
      rw [hz]
      omega

/-- C1 counterexample: with a missing trainer (baseline) image the code
assigns the literal verdict `no_trainer`, not `no_baseline`, and the totals
dictionary's key set is `{ok, warn, fail, no_trainer}`, not
`{ok, warn, fail, no_baseline}`. -/
theorem C1_no_baseline_counterexample :
    (processUrl ssim_threshold_default
        ⟨false, true, Except.error ""⟩ "https://example.com").status = "no_trainer" ∧
    (processUrl ssim_threshold_default
        ⟨false, true, Except.error ""⟩ "https://example.com").status ≠ "no_baseline" ∧
    totalsKeys ≠ ["ok", "warn", "fail", "no_baseline"] := by
  refine ⟨rfl, ?_, ?_⟩ <;> decide

/-- C1 (amended): for every URL whose trainer (baseline) image does not
exist, the run endpoint assigns the verdict `no_trainer` without attempting
comparison (the item is independent of the comparison outcome and carries no
metrics), and the totals object uses the key set
`{ok, warn, fail, no_trainer}`. -/
theorem C1_missing_trainer_verdict (threshold : ℚ) (c : Bool)
    (r r2 : Except String Metrics) (u : String) :
    (processUrl threshold ⟨false, c, r⟩ u).status = "no_trainer" ∧
    (processUrl threshold ⟨false, c, r⟩ u).metrics = none ∧
    processUrl threshold ⟨false, c, r⟩ u = processUrl threshold ⟨false, c, r2⟩ u ∧
    totalsKeys = ["ok", "warn", "fail", "no_trainer"] :=
  ⟨rfl, rfl, rfl, rfl⟩

/-- C2 counterexample: a `fail` verdict caused by a missing current capture
does not produce a diff artifact. -/
theorem C2_fail_without_diff_counterexample :
    (processUrl ssim_threshold_default
        ⟨true, false, Except.error ""⟩ "https://example.com").status = "fail" ∧
    (processUrl ssim_threshold_default
        ⟨true, false, Except.error ""⟩ "https://example.com").diff = none :=
  ⟨rfl, rfl⟩

/-- C2 (amended): a diff artifact, named `diff_<CaptureKey>`, is persisted
exactly for a `fail` verdict that comes from a below-threshold score; `fail`
verdicts from a missing current capture or from a comparison exception, and
`ok` and `no_trainer` verdicts, never produce a diff artifact. -/
theorem C2_diff_only_for_metric_fail (threshold : ℚ) (m : Metrics) (e : String)
    (r : Except String Metrics) (c : Bool) (u : String) :
    ((processUrl threshold ⟨true, true, Except.ok m⟩ u).diff
        = if m.ssim ≥ threshold then none
          else some ("diff_" ++ sanitize_filename u)) ∧
    ((processUrl threshold ⟨true, true, Except.ok m⟩ u).status
        = if m.ssim ≥ threshold then "ok" else "fail") ∧
    (processUrl threshold ⟨true, false, r⟩ u).diff = none ∧
    (processUrl threshold ⟨true, true, Except.error e⟩ u).diff = none ∧
    (processUrl threshold ⟨false, c, r⟩ u).diff = none := by
  refine ⟨?_, ?_, rfl, rfl, rfl⟩ <;>
    · unfold processUrl
      dsimp only
      by_cases h : m.ssim ≥ threshold <;> simp [h]

/-- C3: for a compared pair with computed metrics the verdict is `ok`
exactly when `ssim ≥ threshold`: a score of exactly the threshold
classifies as `ok`, a score strictly below it classifies as `fail`,
and the default threshold is 0.92. -/
theorem C3_threshold_boundary (threshold : ℚ) (m : Metrics) (u : String) :
    ((processUrl threshold ⟨true, true, Except.ok m⟩ u).status
        = if m.ssim ≥ threshold then "ok" else "fail") ∧
    (processUrl threshold ⟨true, true, Except.ok ⟨threshold, m.mse⟩⟩ u).status = "ok" ∧
    (m.ssim < threshold →
      (processUrl threshold ⟨true, true, Except.ok m⟩ u).status = "fail") ∧
    ssim_threshold_default = 92/100 := by
  refine ⟨?_, ?_, ?_, rfl⟩
  · unfold processUrl
    dsimp only
    by_cases h : m.ssim ≥ threshold <;> simp [h]
  · unfold processUrl
    dsimp only
    simp [le_refl]
  · intro hlt
    unfold processUrl
    dsimp only
    have h : ¬ (m.ssim ≥ threshold) := not_le.mpr hlt
    simp [h]

theorem C3_threshold_witness :
    (91/100 : ℚ) < 92/100 ∧
    (processUrl (92/100) ⟨true, true, Except.ok ⟨91/100, 0⟩⟩
        "https://example.com").status = "fail" :=
  ⟨by norm_num,
    (C3_threshold_boundary (92/100) ⟨91/100, 0⟩ "https://example.com").2.2.1
      (by norm_num)⟩

/-- C5: the report's items list has exactly one entry per URL, positionally
matching the parsed URL list (even when two URLs collide on the same Capture
Key, since the loop never deduplicates), and the four totals counters sum to
the number of URLs. -/
theorem C5_items_positional (threshold : ℚ) (env : String → UrlEnv)
    (urls : List String) :
    (run_and_compare threshold env urls).1.map Item.url = urls ∧
    (run_and_compare threshold env urls).1.length = urls.length ∧
    sumTotals (run_and_compare threshold env urls).2 = urls.length := by
  obtain ⟨h1, h2, h3, h4⟩ := compareLoop_spec threshold env urls ([], totalsInit)
  have hu : (run_and_compare threshold env urls).1.map Item.url = urls := by
    simpa [run_and_compare] using h1
  refine ⟨hu, ?_, ?_⟩
  · have := congrArg List.length hu
    simpa using this
  · simpa [run_and_compare, sumTotals, totalsInit] using h2

/-- C7: no item is ever assigned the status `warn` (its count among the
report statuses is zero) and the `warn` totals counter is always zero: the
classification only produces `ok`, `fail` or `no_trainer`. -/
theorem C7_warn_never_assigned (threshold : ℚ) (env : String → UrlEnv)
    (urls : List String) :
    ((run_and_compare threshold env urls).1.map Item.status).count "warn" = 0 ∧
    (run_and_compare threshold env urls).2.warn = 0 := by
  obtain ⟨h1, h2, h3, h4⟩ := compareLoop_spec threshold env urls ([], totalsInit)
  constructor
  · simpa [run_and_compare] using h4
  · simpa [run_and_compare, totalsInit] using h3

/-! ### Facts about the PNG purge -/

theorem unlinkAll_cons_not_mem :
    ∀ (fs : List String) (dir : List String) (x : String), x ∉ fs →
      unlinkAll (x :: dir) fs = x :: unlinkAll dir fs
  | [], _, _, _ => rfl
  | f :: fs, dir, x, hx => by
    have hxf : x ≠ f := fun h => hx (h ▸ List.mem_cons_self f fs)
    have hxfs : x ∉ fs := fun h => hx (List.mem_cons_of_mem f h)
    have e : unlinkAll (x :: dir) (f :: fs) = unlinkAll ((x :: dir).erase f) fs := rfl
    rw [e, List.erase_cons_tail (by simpa using hxf)]
    exact unlinkAll_cons_not_mem fs (dir.erase f) x hxfs

theorem unlinkAll_filter (p : String → Bool) :
    ∀ l : List String, l.Nodup →
      unlinkAll l (l.filter p) = l.filter (fun f => !(p f))
  | [], _ => rfl
  | x :: xs, h => by
    obtain ⟨hx, hnd⟩ := List.nodup_cons.mp h
    by_cases hp : p x
    · rw [List.filter_cons_of_pos (by simpa using hp)]
      have e : unlinkAll (x :: xs) (x :: xs.filter p)
          = unlinkAll ((x :: xs).erase x) (xs.filter p) := rfl
      rw [e, List.erase_cons_head, unlinkAll_filter p xs hnd,
        List.filter_cons_of_neg (by simp [hp])]
    · rw [List.filter_cons_of_neg (by simpa using hp)]
      have hxnot : x ∉ xs.filter p := fun hmem => hx (List.mem_of_mem_filter hmem)
      rw [unlinkAll_cons_not_mem _ _ _ hxnot, unlinkAll_filter p xs hnd,
        List.filter_cons_of_pos (by simp [hp])]

/-- C8: before a batch starts, only the PNG files already present in the
screenshots directory are deleted — the surviving files are exactly the
non-PNG ones — and the trainer (baseline) directory is left unchanged by
this purge. -/
theorem C8_purge_only_shots_pngs (st : DirsState) (h : st.shots.Nodup) :
    (cleanShotsDir st).trainer = st.trainer ∧
    (cleanShotsDir st).shots = st.shots.filter (fun f => !(isPng f)) ∧
    (∀ f : String, f ∈ (cleanShotsDir st).shots ↔ f ∈ st.shots ∧ isPng f = false) := by
  have hs : (cleanShotsDir st).shots = st.shots.filter (fun f => !(isPng f)) :=
    unlinkAll_filter _ st.shots h
  refine ⟨rfl, hs, ?_⟩
  intro f
  rw [hs, List.mem_filter]
  simp

theorem C8_purge_witness :
    (["a.png", "b.txt"] : List String).Nodup ∧
    (cleanShotsDir ⟨["a.png", "b.txt"], ["c.png"]⟩).trainer = ["c.png"] ∧
    (cleanShotsDir ⟨["a.png", "b.txt"], ["c.png"]⟩).shots = ["b.txt"] := by
  have h := C8_purge_only_shots_pngs ⟨["a.png", "b.txt"], ["c.png"]⟩ (by decide)
  refine ⟨by decide, h.1, ?_⟩
  rw [h.2.1]
  decide

/-! ### Facts about the scroll loop -/

theorem dropLast_cons_ne {α : Type} (a : α) (l : List α) (h : l ≠ []) :
    (a :: l).dropLast = a :: l.dropLast := by
  cases l with
  | nil => exact absurd rfl h
  | cons b t => rfl

theorem getLast?_cons_ne {α : Type} (a : α) (l : List α) (h : l ≠ []) :
    (a :: l).getLast? = l.getLast? := by
  cases l with
  | nil => exact absurd rfl h
  | cons b t => exact List.getLast?_cons_cons

theorem gentleScrollLoop_spec {β : Type} (br : Browser β) :
    ∀ (fuel : Nat) (last : ℚ) (b : β),
      ScrollSpec fuel last (gentleScrollLoop br fuel last b) := by
  intro fuel
  induction fuel with
  | zero =>
    intro last b
    refine ⟨Nat.le_refl 0, rfl, rfl, rfl, fun _ => ⟨rfl, ?_⟩, fun h => by simp [gentleScrollLoop] at h⟩
    simp [gentleScrollLoop]
  | succ fuel ih =>
    intro last b
    simp only [gentleScrollLoop]
    split
    next hstall =>
      refine ⟨Nat.succ_le_succ (Nat.zero_le fuel), rfl, rfl, rfl,
        fun h => by simp at h, fun _ => ?_⟩
      refine ⟨Nat.le_refl 1, ⟨[], last, by simp [hstall]⟩, by simp, rfl⟩
    next hstall =>
      obtain ⟨ih1, ih2, ih3, ih4, ihf, iht⟩ :=
        ih (br.getOffset (br.pause (br.scrollTo b (min (last + 800) (br.getHeight b)))))
          (br.pause (br.scrollTo b (min (last + 800) (br.getHeight b))))
      set nOff := br.getOffset (br.pause (br.scrollTo b (min (last + 800) (br.getHeight b)))) with hnOff
      set r := gentleScrollLoop br fuel nOff
        (br.pause (br.scrollTo b (min (last + 800) (br.getHeight b)))) with hr
      refine ⟨Nat.succ_le_succ ih1, by simp [ih2], by simp [ih3], ?_, ?_, ?_⟩
      · show r.scrolls.length + 1 = r.steps + 1 + (if r.early then 1 else 0)
        rw [ih4]
        omega
      · intro hf
        have hf2 : r.early = false := hf
        obtain ⟨hsteps, hchain⟩ := ihf hf2
        refine ⟨by show r.steps + 1 = fuel + 1; omega, ?_⟩
        show List.Chain' (fun x y => x ≠ y) (last :: nOff :: r.offsets)
        rw [List.chain'_cons]
        exact ⟨fun hh => hstall hh.symm, hchain⟩
      · intro ht
        have ht2 : r.early = true := ht
        obtain ⟨h1le, ⟨l, x, hlx⟩, hchain, hglast⟩ := iht ht2
        refine ⟨Nat.le_add_left 1 r.steps, ⟨last :: l, x, ?_⟩, ?_, ?_⟩
        · show last :: nOff :: r.offsets = (last :: l) ++ [x, x]
          rw [List.cons_append, ← hlx]
        · show List.Chain' (fun x y => x ≠ y) ((last :: nOff :: r.offsets).dropLast)
          rw [dropLast_cons_ne last _ (by simp)]
          cases ho : r.offsets with
          | nil => simp
          | cons o os =>
            rw [ho] at hchain
            rw [dropLast_cons_ne nOff _ (by simp)] at hchain ⊢
            rw [List.chain'_cons]
            exact ⟨fun hh => hstall hh.symm, hchain⟩
        · show (min (last + 800) (br.getHeight b) :: r.scrolls).getLast?
              = (br.getHeight b :: r.heights).getLast?
          have hs : r.scrolls ≠ [] := by
            rw [ht2] at ih4
            simp at ih4
            intro hnil
            rw [hnil] at ih4
            simp at ih4
          have hh : r.heights ≠ [] := by
            intro hnil
            rw [hnil] at ih3
            simp at ih3
            omega
          rw [getLast?_cons_ne _ _ hs, getLast?_cons_ne _ _ hh, hglast]

/-- C9: for every page (any browser behaviour), the incremental scroll loop
terminates after at most the maximum step count (100 iterations, one offset
read per iteration); it stops early exactly as soon as the read-back offset
fails to advance between two consecutive steps — without an early stop all
100 iterations run and every consecutive pair of read offsets (seeded with
the initial 0) differs; with an early stop the offset trace ends in a
repeated value, all earlier consecutive reads differ, and the loop performs
exactly one extra final scroll, targeting the document height read in the
breaking iteration, before stopping. -/
theorem C9_scroll_terminates {β : Type} (br : Browser β) (b : β) :
    (gentle_scroll br b).steps ≤ 100 ∧
    (gentle_scroll br b).offsets.length = (gentle_scroll br b).steps ∧
    (gentle_scroll br b).scrolls.length
      = (gentle_scroll br b).steps + (if (gentle_scroll br b).early then 1 else 0) ∧
    ((gentle_scroll br b).early = false →
      (gentle_scroll br b).steps = 100 ∧
      List.Chain' (fun x y => x ≠ y) ((0 : ℚ) :: (gentle_scroll br b).offsets)) ∧
    ((gentle_scroll br b).early = true →
      (∃ l x, (0 : ℚ) :: (gentle_scroll br b).offsets = l ++ [x, x]) ∧
      List.Chain' (fun x y => x ≠ y)
        (((0 : ℚ) :: (gentle_scroll br b).offsets).dropLast) ∧
      (gentle_scroll br b).scrolls.getLast? = (gentle_scroll br b).heights.getLast?) := by
  obtain ⟨h1, h2, h3, h4, h5, h6⟩ := gentleScrollLoop_spec br 100 0 b
  exact ⟨h1, h2, h4, h5, fun ht => ⟨(h6 ht).2.1, (h6 ht).2.2.1, (h6 ht).2.2.2⟩⟩

theorem C9_scroll_witness :
    (gentle_scroll testBrowser 0).early = true ∧
    (gentle_scroll testBrowser 0).steps ≤ 100 ∧
    (∃ l x, (0 : ℚ) :: (gentle_scroll testBrowser 0).offsets = l ++ [x, x]) ∧
    (gentle_scroll testBrowser 0).scrolls.getLast?
      = (gentle_scroll testBrowser 0).heights.getLast? := by
  have h := C9_scroll_terminates testBrowser 0
  have he : (gentle_scroll testBrowser 0).early = true := by decide
  exact ⟨he, h.1, (h.2.2.2.2 he).1, (h.2.2.2.2 he).2.2⟩

/-! ### Facts about the comparison metrics -/

theorem weighted_var_nonneg_aux (P : Finset (Nat × Nat))
    (wt : Nat × Nat → Nat × Nat → ℚ) (p : Nat × Nat) (X : Nat × Nat → ℚ)
    (mu : ℚ) (hw : ∀ q ∈ P, 0 ≤ wt p q) (hs : ∑ q ∈ P, wt p q = 1)
    (hmu : mu = ∑ q ∈ P, wt p q * X q) :
    0 ≤ (∑ q ∈ P, wt p q * (X q * X q)) - mu * mu := by
  have h0 : 0 ≤ ∑ q ∈ P, wt p q * ((X q - mu) * (X q - mu)) :=
    Finset.sum_nonneg fun q hq => mul_nonneg (hw q hq) (mul_self_nonneg _)
  have hterm : ∀ q ∈ P, wt p q * ((X q - mu) * (X q - mu))
      = wt p q * (X q * X q) - 2 * mu * (wt p q * X q) + mu * mu * wt p q :=
    fun q _ => by ring
  rw [Finset.sum_congr rfl hterm, Finset.sum_add_distrib, Finset.sum_sub_distrib,
    ← Finset.mul_sum, ← Finset.mul_sum, ← hmu, hs] at h0
  linarith

theorem ssimAt_self (P : Finset (Nat × Nat)) (wt : Nat × Nat → Nat × Nat → ℚ)
    (X : Nat × Nat → ℚ) (L : ℚ) (p : Nat × Nat)
    (hw : ∀ q ∈ P, 0 ≤ wt p q) (hs : ∑ q ∈ P, wt p q = 1) (hL : L ≠ 0) :
    ssimAt P wt X X L p = 1 := by
  have hvar : 0 ≤ localMean P wt (fun q => X q * X q) p
      - localMean P wt X p * localMean P wt X p :=
    weighted_var_nonneg_aux P wt p X (localMean P wt X p) hw hs rfl
  have h1 : (1/100 : ℚ) * L ≠ 0 := mul_ne_zero (by norm_num) hL
  have h3 : (3/100 : ℚ) * L ≠ 0 := mul_ne_zero (by norm_num) hL
  have hC1 : 0 < ssimC1 L :=
    lt_of_le_of_ne (sq_nonneg _) (Ne.symm (pow_ne_zero 2 h1))
  have hC2 : 0 < ssimC2 L :=
    lt_of_le_of_ne (sq_nonneg _) (Ne.symm (pow_ne_zero 2 h3))
  have hu : 0 ≤ localMean P wt X p * localMean P wt X p := mul_self_nonneg _
  set u := localMean P wt X p with hu_def
  set s2 := localMean P wt (fun q => X q * X q) p with hs2_def
  have hd1 : 0 < u * u + u * u + ssimC1 L := by linarith
  have hd2 : 0 < (s2 - u * u) + (s2 - u * u) + ssimC2 L := by linarith
  show ((2 * u * u + ssimC1 L) * (2 * (s2 - u * u) + ssimC2 L)) /
      ((u * u + u * u + ssimC1 L) * ((s2 - u * u) + (s2 - u * u) + ssimC2 L)) = 1
  rw [show (2 * u * u + ssimC1 L) * (2 * (s2 - u * u) + ssimC2 L)
      = (u * u + u * u + ssimC1 L) * ((s2 - u * u) + (s2 - u * u) + ssimC2 L)
      from by ring]
  exact div_self (ne_of_gt (mul_pos hd1 hd2))

theorem ssimScore_self (P : Finset (Nat × Nat)) (wt : Nat × Nat → Nat × Nat → ℚ)
    (X : Nat × Nat → ℚ) (L : ℚ)
    (hw : ∀ p ∈ P, ∀ q ∈ P, 0 ≤ wt p q)
    (hs : ∀ p ∈ P, ∑ q ∈ P, wt p q = 1)
    (hL : L ≠ 0) (hne : P.Nonempty) :
    ssimScore P wt X X L = 1 := by
  have hcard : ((P.card : ℚ)) ≠ 0 := by
    have := Finset.Nonempty.card_pos hne
    exact_mod_cast Nat.pos_iff_ne_zero.mp this
  show (∑ p ∈ P, ssimAt P wt X X L p) / (P.card : ℚ) = 1
  rw [Finset.sum_congr rfl (fun p hp => ssimAt_self P wt X L p (hw p hp) (hs p hp) hL)]
  rw [Finset.sum_const, nsmul_eq_mul, mul_one]
  exact div_self hcard

/-- C6: for every pair of identical baseline and current images (the very
same pixel grid, so no resize happens), `compute_metrics` returns
`ssim = 1` and `mse = 0`, for any local-averaging SSIM filter (per-pixel
nonnegative weights summing to 1) and any nonempty grid. -/
theorem C6_identical_images (resize : RGBImage → Nat × Nat → RGBImage)
    (wt : Nat × Nat → Nat × Nat → ℚ) (img : RGBImage)
    (hw : ∀ p ∈ pixelSet img.length ((img.getD 0 []).length),
          ∀ q ∈ pixelSet img.length ((img.getD 0 []).length), 0 ≤ wt p q)
    (hs : ∀ p ∈ pixelSet img.length ((img.getD 0 []).length),
          ∑ q ∈ pixelSet img.length ((img.getD 0 []).length), wt p q = 1)
    (hh : 0 < img.length) (hww : 0 < (img.getD 0 []).length) :
    (compute_metrics resize wt img img).ssim = 1 ∧
    (compute_metrics resize wt img img).mse = 0 := by
  have halign : (if imgShape img ≠ (img.length, (img.getD 0 []).length)
      then resize img ((img.getD 0 []).length, img.length) else img) = img := by
    rw [if_neg]
    simp [imgShape]
  have hcm : compute_metrics resize wt img img = computeMetricsAligned wt img img := by
    show computeMetricsAligned wt img
        (if imgShape img ≠ (img.length, (img.getD 0 []).length)
          then resize img ((img.getD 0 []).length, img.length) else img)
      = computeMetricsAligned wt img img
    rw [halign]
  have hne : (pixelSet img.length ((img.getD 0 []).length)).Nonempty := by
    refine ⟨(0, 0), ?_⟩
    simp only [pixelSet, Finset.mem_product, Finset.mem_range]
    exact ⟨hh, hww⟩
  rw [hcm]
  constructor
  · show ssimScore (pixelSet img.length ((img.getD 0 []).length)) wt
        (pxAt (toGray img)) (pxAt (toGray img)) 255 = 1
    exact ssimScore_self _ wt _ 255 hw hs (by norm_num) hne
  · show (∑ p ∈ pixelSet img.length ((img.getD 0 []).length),
        (pxAt (toGray img) p - pxAt (toGray img) p)
          * (pxAt (toGray img) p - pxAt (toGray img) p))
        / ((pixelSet img.length ((img.getD 0 []).length)).card : ℚ) = 0
    simp

theorem C6_identical_witness :
    0 < ([[(⟨0, 0, 0⟩ : RGBPx)]] : RGBImage).length ∧
    (compute_metrics (fun i _ => i) (fun _ _ => 1)
        [[(⟨0, 0, 0⟩ : RGBPx)]] [[(⟨0, 0, 0⟩ : RGBPx)]]).ssim = 1 ∧
    (compute_metrics (fun i _ => i) (fun _ _ => 1)
        [[(⟨0, 0, 0⟩ : RGBPx)]] [[(⟨0, 0, 0⟩ : RGBPx)]]).mse = 0 := by
  have h := C6_identical_images (fun i _ => i) (fun _ _ => 1) [[(⟨0, 0, 0⟩ : RGBPx)]]
    (fun p _ q _ => by norm_num)
    (fun p _ => by
      show ∑ q ∈ pixelSet 1 1, (1 : ℚ) = 1
      simp [pixelSet])
    (by norm_num) (by norm_num [List.getD])
  exact ⟨by norm_num, h.1, h.2⟩
